import Mathlib

/-!
Verification of the Instagram fraud-warning checker (Appium batch checker
`checker_appium.py` and FastAPI queue service `main.py`).

The development shallowly embeds the control logic of the two modules:
pure pattern matching and classification are translated directly; external
effects (Appium driver calls, adb, the filesystem clock) are supplied as
explicit oracle inputs, and each fallible driver call is represented by a
boolean "this call raised" oracle field together with the exception message.
-/

set_option maxHeartbeats 1000000

set_option maxRecDepth 10000

namespace Insta

/-! ## String helpers (Python `in` substring test, `.lower()`) -/

/-- Boolean list-prefix test, models Python string slicing comparison. -/
def isPrefixOfB : List Char → List Char → Bool
  | [], _ => true
  | _ :: _, [] => false
  | a :: as, b :: bs => a == b && isPrefixOfB as bs

/-- `containsSub pat s` models Python `pat in s` (substring containment). -/
def containsSub (pat : List Char) : List Char → Bool
  | [] => isPrefixOfB pat []
  | b :: bs => isPrefixOfB pat (b :: bs) || containsSub pat bs

/-- Python `pat in s` on strings. -/
def strIn (pat s : String) : Bool := containsSub pat.toList s.toList

/-- Python `s.lower()` (ASCII case folding, the only case relevant here). -/
def lowerL (s : List Char) : List Char := s.map Char.toLower

/-! ## The CSV layer

`save_results_to_csv` uses Python `csv.DictWriter` with the default
dialect: fields joined with the comma, records terminated by CRLF,
QUOTE_MINIMAL quoting with doubled embedded quotes;
`_load_completed_accounts` reads the file back through `csv.DictReader`.
Both directions are embedded at the character-list level. -/

def needsQuote (f : List Char) : Bool :=
  f.any fun c => c == ',' || c == '"' || c == '\r' || c == '\n'

def escapeQuotes : List Char → List Char
  | [] => []
  | c :: rest => if c = '"' then '"' :: '"' :: escapeQuotes rest else c :: escapeQuotes rest

/-- One CSV field as written by `csv.writer` (QUOTE_MINIMAL). -/
def writeField (f : List Char) : List Char :=
  if needsQuote f then '"' :: (escapeQuotes f ++ ['"']) else f

/-- One CSV record: comma-separated fields terminated by CRLF. -/
def encodeRecord : List (List Char) → List Char
  | [] => ['\r', '\n']
  | [f] => writeField f ++ ['\r', '\n']
  | f :: g :: fs => writeField f ++ ',' :: encodeRecord (g :: fs)

/-- A full CSV file: the records in order. -/
def encodeAll : List (List (List Char)) → List Char
  | [] => []
  | r :: rs => encodeRecord r ++ encodeAll rs

/-- Parse the body of a quoted field (input starts after the opening
quote); stops after the closing quote, un-doubling embedded quotes. -/
def parseQuoted : List Char → List Char × List Char
  | [] => ([], [])
  | [c] =>
    if c = '"' then ([], []) else ([c], [])
  | c :: c2 :: rest =>
    if c = '"' then
      if c2 = '"' then
        let p := parseQuoted rest
        ('"' :: p.1, p.2)
      else ([], c2 :: rest)
    else
      let p := parseQuoted (c2 :: rest)
      (c :: p.1, p.2)

/-- Universal-newline translation: `_load_completed_accounts` opens the
results file in text mode without `newline=''`, so Python maps every
CRLF pair and every lone CR in the stream to LF before `csv.DictReader`
sees it (the writer does pass `newline=''`, so writes are exact). -/
def univNewlines : List Char → List Char
  | [] => []
  | [c] => if c = '\r' then ['\n'] else [c]
  | c :: c2 :: rest =>
    if c = '\r' then
      if c2 = '\n' then '\n' :: univNewlines rest
      else '\n' :: univNewlines (c2 :: rest)
    else c :: univNewlines (c2 :: rest)

/-- Parse an unquoted field of the translated stream: consume up to the
next delimiter or record end (after universal-newline translation the
stream contains no CR, and records end with a single LF). -/
def parseUnquoted : List Char → List Char × List Char
  | [] => ([], [])
  | c :: rest =>
    if c = ',' ∨ c = '\n' then ([], c :: rest)
    else
      let p := parseUnquoted rest
      (c :: p.1, p.2)

/-- Parse one CSV field, choosing quoted or unquoted mode. -/
def parseField (input : List Char) : List Char × List Char :=
  match input with
  | [] => parseUnquoted []
  | c :: rest => if c = '"' then parseQuoted rest else parseUnquoted (c :: rest)

/-- Fuel-indexed parser for the fields of one record of the translated
stream; consumes the terminating LF.  The fuel only bounds the number of
fields. -/
def parseFieldsF : Nat → List Char → List (List Char) × List Char
  | 0, input => ([], input)
  | fuel + 1, input =>
    let p := parseField input
    match p.2 with
    | [] => ([p.1], [])
    | c :: r1 =>
      if c = ',' then
        let q := parseFieldsF fuel r1
        (p.1 :: q.1, q.2)
      else if c = '\n' then ([p.1], r1)
      else ([p.1], c :: r1)

/-- Parse the fields of one record (the fuel `input.length + 1` always
suffices since every extra field consumes at least one delimiter). -/
def parseFieldsTop (input : List Char) : List (List Char) × List Char :=
  parseFieldsF (input.length + 1) input

/-- Fuel-indexed parser for a sequence of records. -/
def parseRecordsF : Nat → List Char → List (List (List Char))
  | 0, _ => []
  | fuel + 1, input =>
    match input with
    | [] => []
    | c :: cs =>
      let q := parseFieldsTop (c :: cs)
      q.1 :: parseRecordsF fuel q.2

/-- Parse a whole CSV file into its records. -/
def parseCSV (content : List Char) : List (List (List Char)) :=
  parseRecordsF (content.length + 1) content

/-- The continuation after a closing quote never itself starts with a
quote in a well-formed encoding. -/
def headOkQ : List Char → Bool
  | [] => true
  | c :: _ => decide (c ≠ '"')

/-- In a well-formed translated encoding, an unquoted field is followed
by a delimiter, a record-ending LF, or the end of the file. -/
def headStop : List Char → Bool
  | [] => true
  | c :: _ => c = ',' || c = '\n'

/-- A field free of carriage returns: such fields survive the text-mode
read untranslated. -/
def crFree (f : List Char) : Bool := f.all fun c => !(c == '\r')

/-- The image of one written record under universal-newline translation
(for CR-free fields only the CRLF record terminator changes, to LF). -/
def encodeRecordLF : List (List Char) → List Char
  | [] => ['\n']
  | [f] => writeField f ++ ['\n']
  | f :: g :: fs => writeField f ++ ',' :: encodeRecordLF (g :: fs)

/-- The image of a whole written file under universal-newline
translation, for CR-free fields. -/
def encodeAllLF : List (List (List Char)) → List Char
  | [] => []
  | r :: rs => encodeRecordLF r ++ encodeAllLF rs

/-! ## The Result Store: rows as `DictReader` yields them -/

structure StrRow where
  username : String
  has_warning : String
  warning_type : String
  warning_details : String
  status : String
  timestamp : String
  screenshot : String
deriving DecidableEq

/-- The fixed column order of `save_results_to_csv`. -/
def fieldnames : List String :=
  ["username", "has_warning", "warning_type", "warning_details", "status", "timestamp",
    "screenshot"]

def fieldnamesChars : List (List Char) := fieldnames.map String.toList

/-- The seven field values of a row, in schema order (what `DictWriter`
emits for the row). -/
def rowFields (r : StrRow) : List (List Char) :=
  [r.username.toList, r.has_warning.toList, r.warning_type.toList, r.warning_details.toList,
    r.status.toList, r.timestamp.toList, r.screenshot.toList]

/-- The character content of the file `save_results_to_csv` produces for a
non-empty result list: a header record followed by one record per row. -/
def save_results_to_csv (results : List StrRow) : List Char :=
  encodeAll (fieldnamesChars :: results.map rowFields)

/-- Rebuild a `StrRow` from the seven parsed fields of one record
(`DictReader` zipping the header with the record). -/
def rowOfFields : List (List Char) → Option StrRow
  | [u, hw, wt, wd, st, ts, sc] =>
    some ⟨u.asString, hw.asString, wt.asString, wd.asString, st.asString, ts.asString,
      sc.asString⟩
  | _ => none

/-- `csv.DictReader` over a results file written with the fixed header,
as `_load_completed_accounts` reads it: the text-mode `open` without
`newline=''` first applies universal-newline translation to the raw
characters, then the reader parses the translated stream. -/
def readRows (content : List Char) : List StrRow :=
  match parseCSV (univNewlines content) with
  | [] => []
  | header :: rest =>
    if header = fieldnamesChars then rest.filterMap rowOfFields else []

/-- A row all of whose seven fields are CR-free. -/
def rowCrFree (r : StrRow) : Bool := (rowFields r).all crFree

/-- The statuses `_load_completed_accounts` skips (treats as already
completed); `error` and `load_failed` are added when `retry_errors` is
false. -/
def skip_statuses (retry_errors : Bool) : List String :=
  ["no_warning", "warning_detected", "not_found"]
    ++ (if retry_errors then [] else ["error", "load_failed"])

/-- `any(s in status for s in skip_statuses)` — substring matching. -/
def isTerminalStatus (retry_errors : Bool) (status : String) : Bool :=
  (skip_statuses retry_errors).any fun s => containsSub s.toList status.toList

/-- `_load_completed_accounts` over already-read rows: returns the
completed username collection and the re-emitted prior rows, in file
order.  Rows without a username are skipped; rows whose status does not
match the skip set are neither marked completed nor re-emitted. -/
def load_completed_accounts (retry_errors : Bool) : List StrRow → List String × List StrRow
  | [] => ([], [])
  | r :: rest =>
    let p := load_completed_accounts retry_errors rest
    if r.username = "" then p
    else if isTerminalStatus retry_errors r.status then (r.username :: p.1, r :: p.2)
    else p

/-- The resume step of `run`: partition the input accounts against the
prior results.  Mirrors the `if completed:` guard in the source — when
nothing is completed the account list and the carried-over results are
left untouched. -/
def run_resume (accounts : List String) (rows : List StrRow) (retry_errors : Bool) :
    List String × List StrRow :=
  let lc := load_completed_accounts retry_errors rows
  if lc.1.isEmpty then (accounts, [])
  else (accounts.filter (fun a => ¬ lc.1.contains a), lc.2)

/-! ## The account-check state machine (`check_account`) -/

/-- One profile-navigation attempt as seen from the outside: either the
adb launch / page-source read raised, or a page source was obtained. -/
inductive AttemptOutcome
  | raised
  | page (src : List Char)

/-- The "account unavailable" pattern set of `open_profile`. -/
def notFoundCheck (src : List Char) : Bool :=
  containsSub "このページはご利用いただけません".toList src
    || containsSub "Page Not Found".toList src
    || containsSub "Sorry, this page isn't available".toList src

/-- The "page loaded" check of `open_profile`: more than 1000 characters
together with the target username (case-folded) or a follow-button text. -/
def loadedCheck (target : List Char) (src : List Char) : Bool :=
  decide (1000 < src.length)
    && (containsSub (lowerL target) (lowerL src)
        || containsSub "フォロー".toList src
        || containsSub "Follow".toList src)

/-- Observable events of a check: progress reports (username and status
tag) and returns to the home screen. -/
inductive Ev
  | progress (user status : String)
  | goHome
deriving DecidableEq

/-- The retry loop of `open_profile` (`for attempt in range(3)`), from
attempt number `attempt` with `fuel` loop iterations left.  Returns the
status string and the home returns performed between attempts; falling
off the loop yields `load_failed` as in the source (unreachable while
`attempt + fuel = 3`, since the last attempt always returns). -/
def open_profile_loop (target : List Char) (env : Nat → AttemptOutcome) :
    Nat → Nat → String × List Ev
  | _, 0 => ("load_failed", [])
  | attempt, fuel + 1 =>
    match env attempt with
    | .raised =>
      if attempt + 1 < 3 then open_profile_loop target env (attempt + 1) fuel
      else ("error", [])
    | .page src =>
      if notFoundCheck src then ("not_found", [])
      else if loadedCheck target src then ("success", [])
      else if attempt + 1 < 3 then
        let p := open_profile_loop target env (attempt + 1) fuel
        (p.1, Ev.goHome :: p.2)
      else ("load_failed", [])

def open_profile (target : List Char) (env : Nat → AttemptOutcome) : String × List Ev :=
  open_profile_loop target env 0 3

/-- The oracle for one `check_account` call: the navigation attempts plus,
for every fallible driver call in the try block, whether that call raised,
and the data the non-fallible lookups return. -/
structure CheckEnv where
  profile : Nat → AttemptOutcome
  already_following : Bool
  refollowRaises : Bool
  followClickRaises : Bool
  fraud_warning : Bool
  dateElem : Option String
  locElem : Option String
  screenshotRaises : Bool
  unfollowRaises : Bool
  exMsg : String

/-- `_get_warning_details`: join the optional detail fields, falling back
to the sentinel when none was found. -/
def get_warning_details (dateElem locElem : Option String) : String :=
  let details :=
    (match dateElem with
     | some t => ["利用開始日: " ++ t]
     | none => [])
    ++ (match locElem with
        | some t => ["所在地: " ++ t]
        | none => [])
  if details.isEmpty then "詳細取得失敗" else String.intercalate " | " details

/-- The screenshot path `_save_screenshot` builds. -/
def save_screenshot_path (user ts : String) : String :=
  "/app/data/screenshots/" ++ user ++ "_" ++ ts ++ ".png"

/-- One result row of `check_account`. -/
structure ResultRow where
  username : String
  has_warning : Bool
  warning_type : String
  warning_details : String
  status : String
  timestamp : String
  screenshot : String
deriving DecidableEq

/-- The `except Exception` handler of `check_account`: overwrite the
status with `error: <message>`, report, go home, return the row. -/
def checkExcept (row : ResultRow) (msg : String) (evs : List Ev) : ResultRow × List Ev :=
  ({row with status := "error: " ++ msg},
    evs ++ [Ev.progress row.username "error", Ev.goHome])

/-- `check_account`, with driver effects taken from the oracle.  Returns
the single result row together with the event trace. -/
def check_account (user ts : String) (env : CheckEnv) : ResultRow × List Ev :=
  let row0 : ResultRow := ⟨user, false, "", "", "unknown", ts, ""⟩
  let evs0 : List Ev := [Ev.progress user "checking"]
  let pr := open_profile user.toList env.profile
  if pr.1 ≠ "success" then
    ({row0 with status := pr.1}, evs0 ++ pr.2 ++ [Ev.progress user pr.1])
  else if env.already_following && env.refollowRaises then
    checkExcept row0 env.exMsg (evs0 ++ pr.2)
  else
    let evs1 := evs0 ++ pr.2 ++ [Ev.progress user "checking"]
    if env.followClickRaises then
      checkExcept row0 env.exMsg evs1
    else if env.fraud_warning then
      let row1 := { row0 with
        has_warning := true
        warning_type := "fraud_warning"
        status := "warning_detected"
        warning_details := get_warning_details env.dateElem env.locElem }
      if env.screenshotRaises then
        checkExcept row1 env.exMsg evs1
      else
        let row2 := {row1 with screenshot := save_screenshot_path user ts}
        (row2, evs1 ++ [Ev.progress user "warning_detected", Ev.goHome])
    else
      let row1 := { row0 with has_warning := false, status := "no_warning" }
      let evs2 := evs1 ++ [Ev.progress user "no_warning"]
      if env.unfollowRaises then
        checkExcept row1 env.exMsg evs2
      else
        (row1, evs2 ++ [Ev.goHome])

/-! ## The batch-run orchestrator (`run`) -/

/-- The oracle for a batch run: per 1-based account index, session
liveness before the account, recovery success, the timestamp and the
check oracle for the account. -/
structure RunEnv where
  alive : Nat → Bool
  recoverOk : Nat → Bool
  ts : Nat → String
  check : Nat → CheckEnv

structure RunOut where
  results : List ResultRow
  processed : List String
  restarts : List Nat
  aborted : Bool

/-- The per-account loop of `run`, starting at 1-based index `i`:
recover dead sessions (break on failure), restart the session before
account `i` whenever `i > 1` and `(i - 1) % batch_size == 0`, run
`check_account`, collect the row. -/
def runLoop (env : RunEnv) (batch_size : Nat) : List String → Nat → RunOut
  | [], _ => ⟨[], [], [], false⟩
  | a :: rest, i =>
    if !env.alive i && !env.recoverOk i then ⟨[], [], [], true⟩
    else
      let restartNow := decide (1 < i) && ((i - 1) % batch_size == 0)
      let c := check_account a (env.ts i) (env.check i)
      let out := runLoop env batch_size rest (i + 1)
      ⟨c.1 :: out.results, a :: out.processed,
        (if restartNow then [i] else []) ++ out.restarts, out.aborted⟩

/-- The batch loop as invoked while the web layer's cancellation flag is
in some state: the loop body of `checker_appium.run` contains no read of
`execution_state["is_running"]`, so the flag does not occur in it. -/
def runWithCancel (cancelRequested : Nat → Bool) (env : RunEnv) (batch_size : Nat)
    (accounts : List String) : RunOut :=
  runLoop env batch_size accounts 1

/-- The stub-mode loop of `run_checker` in `main.py`: unlike the real
checker loop, it polls `execution_state["is_running"]` before each
account and stops at the account boundary. -/
def stubLoop (isRunning : Nat → Bool) : List String → Nat → List String
  | [], _ => []
  | a :: rest, i =>
    if !(isRunning i) then []
    else a :: stubLoop isRunning rest (i + 1)

/-! ## The web layer: the cancellation flag and the stub loop -/

/-- `execution_state["is_running"]` after `cancel_queue_job` hits the
running job, or after `/stop`: unconditionally `False`. -/
def is_running_after_cancel : Bool := false

/-! ## The web queue service (`main.py`): rotation and daily quota -/

def MAX_FOLLOWS_PER_DAY : Nat := 60

structure AccountStats where
  today_follows : Nat := 0
  last_follow_at : Option String := none
  last_reset_date : Option String := none
deriving DecidableEq

structure InstagramAccount where
  username : String
  password : String
deriving DecidableEq

/-- The persisted stats table: a Python dict keyed by username, in
insertion order. -/
abbrev StatsMap := List (String × AccountStats)

/-- Python `stats.get(username, AccountStats())`. -/
def statsGet (stats : StatsMap) (username : String) : AccountStats :=
  match stats.find? (fun p => p.1 == username) with
  | some p => p.2
  | none => {}

/-- `reset_daily_stats_if_needed`: zero the counter and stamp today for
every entry whose stored date differs from today. -/
def reset_daily_stats_if_needed (today : String) (stats : StatsMap) : StatsMap :=
  stats.map fun p =>
    if p.2.last_reset_date = some today then p
    else (p.1, { p.2 with today_follows := 0, last_reset_date := some today })

/-- `get_available_account`: reset the day counters, then return the
first credential whose counter is strictly under the daily cap. -/
def get_available_account (accounts : List InstagramAccount) (stats : StatsMap)
    (today : String) : Option InstagramAccount :=
  let stats2 := reset_daily_stats_if_needed today stats
  accounts.find? fun a =>
    decide ((statsGet stats2 a.username).today_follows < MAX_FOLLOWS_PER_DAY)

/-- `increment_follow_count`: bump the counter of `username`, creating a
fresh entry stamped today when absent. -/
def increment_follow_count (stats : StatsMap) (username : String) (now today : String) :
    StatsMap :=
  if stats.any (fun p => p.1 == username) then
    stats.map fun p =>
      if p.1 == username then
        (p.1, { p.2 with today_follows := p.2.today_follows + 1, last_follow_at := some now })
      else p
  else
    stats ++ [(username,
      { today_follows := 1, last_follow_at := some now, last_reset_date := some today })]

structure JobResult where
  status : String
  error : Option String
  checker_invoked : Bool
deriving DecidableEq

/-- Oracle for the parts of a dequeued job beyond the quota logic:
whether `checker.run` raises, and the stats file content left behind by a
successful checker invocation (the checker's own behaviour is modeled by
`runLoop`/`check_account` above). -/
structure JobEnv where
  runRaises : Bool
  runErrMsg : String
  postStats : StatsMap

/-- `run_checker_sync`: reload and reset the stats, select a credential,
fail fast without creating a checker when none is available, otherwise
invoke the checker.  Returns the job outcome and the stats file content
afterwards (the failure paths write nothing). -/
def run_checker_sync (accounts : List InstagramAccount) (stats : StatsMap)
    (today : String) (jenv : JobEnv) : JobResult × StatsMap :=
  if accounts.isEmpty then
    (⟨"failed", some "認証情報なし", false⟩, stats)
  else
    let stats2 := reset_daily_stats_if_needed today stats
    match get_available_account accounts stats2 today with
    | none => (⟨"failed", some "全アカウント上限到達", false⟩, stats)
    | some _ =>
      if jenv.runRaises then (⟨"failed", some jenv.runErrMsg, true⟩, jenv.postStats)
      else (⟨"completed", none, true⟩, jenv.postStats)

/-- The queue worker `process_queue`: dequeue jobs FIFO and run each
through `run_checker_sync`, threading the stats file between jobs. -/
def process_queue (accounts : List InstagramAccount) (today : String) :
    List JobEnv → StatsMap → List JobResult
  | [], _ => []
  | j :: rest, stats =>
    let r := run_checker_sync accounts stats today j
    r.1 :: process_queue accounts today rest r.2

structure SubmitResult where
  httpOk : Bool
  success : Bool
  queued : Bool
deriving DecidableEq

/-- `start_checker` (`POST /start`): validate that the uploaded file
exists and append the job to the queue.  The endpoint consults no quota
state. -/
def start_checker (fileExists : Bool) : SubmitResult :=
  if fileExists then ⟨true, true, true⟩ else ⟨false, false, false⟩

/-! ## Derived predicates over one check -/

/-- True exactly when, after a successful profile load, some driver call
inside the try block of `check_account` raises. -/
def raisesAfterNav (env : CheckEnv) : Bool :=
  (env.already_following && env.refollowRaises) || env.followClickRaises
    || (env.fraud_warning && env.screenshotRaises)
    || (!env.fraud_warning && env.unfollowRaises)

/-- The event filter of `progress_callback_with_stats`: the follow
counter is incremented exactly on progress reports whose status tag is
`no_warning`. -/
def isNoWarningEv : Ev → Bool
  | Ev.progress _ st => st == "no_warning"
  | _ => false

/-- How many times the web callback increments the selected credential's
follow counter over an event trace. -/
def noWarningIncrements (evs : List Ev) : Nat := (evs.filter isNoWarningEv).length

/-- True exactly when a check reaches the `no_warning` progress report:
profile loaded, nothing raised before the fraud check, and no fraud
warning detected. -/
def reachesNoWarningReport (user : String) (env : CheckEnv) : Bool :=
  ((open_profile user.toList env.profile).1 == "success")
    && !(env.already_following && env.refollowRaises)
    && !env.followClickRaises && !env.fraud_warning

/-! ## Concrete oracles used by witnesses and counterexamples -/

/-- A page source that passes `loadedCheck`: a follow-button text followed
by enough filler to exceed the 1000-character threshold. -/
def bigSrc : List Char := "Follow".toList ++ List.replicate 1001 'a'

/-- A navigation oracle whose every attempt loads `bigSrc`. -/
def successProfile : Nat → AttemptOutcome := fun _ => AttemptOutcome.page bigSrc

/-- A check oracle in which nothing raises and no warning appears. -/
def plainCheckEnv : CheckEnv :=
  ⟨successProfile, false, false, false, false, none, none, false, false, ""⟩

/-- A run oracle with a permanently healthy session. -/
def healthyRunEnv : RunEnv :=
  ⟨fun _ => true, fun _ => true, fun _ => "2026-01-01T00:00:00", fun _ => plainCheckEnv⟩

/-- A check oracle where the profile loads, no warning appears, and the
unfollow click raises (after the `no_warning` report). -/
def unfollowRaisesEnv : CheckEnv :=
  ⟨successProfile, false, false, false, false, none, none, false, true, "boom"⟩

/-- A check oracle where a fraud warning is detected and the screenshot
save raises. -/
def shotRaisesEnv : CheckEnv :=
  ⟨successProfile, false, false, false, true, none, none, true, false, "shot failed"⟩

/-! ## A spec-level description of `open_profile` (for C6) -/

/-- Classification of a single navigation attempt. -/
inductive AttemptClass
  | raisedC
  | notFoundC
  | loadedC
  | blankC
deriving DecidableEq

/-- Classify one attempt the way `open_profile` inspects it: the
unavailable-account patterns are checked first, then the loaded check;
short pages with no recognizable content are blank. -/
def classifyAttempt (target : List Char) : AttemptOutcome → AttemptClass
  | .raised => .raisedC
  | .page src =>
    if notFoundCheck src then .notFoundC
    else if loadedCheck target src then .loadedC
    else .blankC

/-- The conclusive verdict of one attempt, if any: an unavailable match
returns `not_found` immediately, recognizable content returns `success`;
raising or blank attempts are retried. -/
def attemptVerdict : AttemptClass → Option String
  | .raisedC => none
  | .notFoundC => some "not_found"
  | .loadedC => some "success"
  | .blankC => none

/-- The home returns performed after a non-final attempt: one for a blank
page, none after an exception. -/
def retryHomes (c : AttemptClass) : List Ev :=
  if c = .blankC then [Ev.goHome] else []

/-- The amended-claim description of `open_profile`: three attempts; the
first conclusive attempt decides; exhausting the attempts yields `error`
when the last attempt raised and `load_failed` otherwise; a home return
happens between retries exactly after blank attempts. -/
def open_profile_spec (target : List Char) (env : Nat → AttemptOutcome) : String × List Ev :=
  match attemptVerdict (classifyAttempt target (env 0)) with
  | some s => (s, [])
  | none =>
    match attemptVerdict (classifyAttempt target (env 1)) with
    | some s => (s, retryHomes (classifyAttempt target (env 0)))
    | none =>
      match attemptVerdict (classifyAttempt target (env 2)) with
      | some s => (s, retryHomes (classifyAttempt target (env 0))
          ++ retryHomes (classifyAttempt target (env 1)))
      | none =>
        ((if classifyAttempt target (env 2) = .raisedC then "error" else "load_failed"),
          retryHomes (classifyAttempt target (env 0))
            ++ retryHomes (classifyAttempt target (env 1)))

/-- A job oracle for a dequeued job whose checker run would not raise. -/
def plainJobEnv : JobEnv := ⟨false, "", []⟩

/-- A row whose details contain the delimiter and quote characters. -/
def quotedRow : StrRow :=
  ⟨"alice", "True", "fraud_warning", "Date joined: May, 2024 \"verified\"",
    "warning_detected", "2026-01-01T00:00:00", "/app/data/screenshots/alice.png"⟩

/-- A row whose status contains a comma and whose details span lines. -/
def newlineRow : StrRow :=
  ⟨"bob", "False", "", "line1\nline2", "error: boom, quote \"x\"",
    "2026-01-01T00:00:01", ""⟩

/-! ## Round-trip lemmas for the CSV layer -/

theorem parseQuoted_cons_ne (c : Char) (l : List Char) (hc : c ≠ '"') :
    parseQuoted (c :: l) = (c :: (parseQuoted l).1, (parseQuoted l).2) := by
  cases l with
  | nil => simp [parseQuoted, hc]
  | cons c2 rest => simp [parseQuoted, hc]

theorem parseQuoted_escape (f rest : List Char) (h : headOkQ rest = true) :
    parseQuoted (escapeQuotes f ++ '"' :: rest) = (f, rest) := by
  induction f with
  | nil =>
    cases rest with
    | nil => simp [escapeQuotes, parseQuoted]
    | cons c2 r2 =>
      have hc2 : c2 ≠ '"' := by simpa [headOkQ] using h
      simp [escapeQuotes, parseQuoted, hc2]
  | cons c t ih =>
    by_cases hc : c = '"'
    · subst hc
      simp only [escapeQuotes, if_pos rfl, List.cons_append]
      simp [parseQuoted, ih]
    · simp only [escapeQuotes, if_neg hc, List.cons_append]
      rw [parseQuoted_cons_ne c _ hc, ih]

theorem parseUnquoted_plain (f rest : List Char)
    (hf : ∀ c ∈ f, ¬(c = ',' ∨ c = '\n')) (h : headStop rest = true) :
    parseUnquoted (f ++ rest) = (f, rest) := by
  induction f with
  | nil =>
    cases rest with
    | nil => simp [parseUnquoted]
    | cons c r =>
      have hc : c = ',' ∨ c = '\n' := by simpa [headStop] using h
      simp [parseUnquoted, hc]
  | cons c t ih =>
    have hc : ¬(c = ',' ∨ c = '\n') := hf c (by simp)
    have ih2 := ih fun d hd => hf d (by simp [hd])
    simp [parseUnquoted, hc, ih2]

theorem needsQuote_eq_false_iff (f : List Char) :
    needsQuote f = false ↔ ∀ c ∈ f, ¬(c = ',' ∨ c = '"' ∨ c = '\r' ∨ c = '\n') := by
  simp only [needsQuote, List.any_eq_false]
  constructor
  · intro h c hc
    have := h c hc
    simp only [Bool.or_eq_true, beq_iff_eq] at this
    tauto
  · intro h c hc
    have := h c hc
    simp only [Bool.or_eq_true, beq_iff_eq]
    tauto

theorem parseField_write (f rest : List Char) (h : headStop rest = true) :
    parseField (writeField f ++ rest) = (f, rest) := by
  by_cases hq : needsQuote f = true
  · have hok : headOkQ rest = true := by
      cases rest with
      | nil => rfl
      | cons c r =>
        have hc : c = ',' ∨ c = '\n' := by simpa [headStop] using h
        have : c ≠ '"' := by rcases hc with h2 | h2 <;> simp [h2]
        simpa [headOkQ] using this
    have : writeField f ++ rest = '"' :: (escapeQuotes f ++ '"' :: rest) := by
      simp [writeField, hq, List.append_assoc]
    rw [this]
    simpa [parseField] using parseQuoted_escape f rest hok
  · have hq' : needsQuote f = false := by simpa using hq
    have hf : ∀ c ∈ f, ¬(c = ',' ∨ c = '\n') := by
      intro c hc hcc
      have := (needsQuote_eq_false_iff f).mp hq' c hc
      tauto
    have hw : writeField f = f := by simp [writeField, hq']
    rw [hw]
    cases f with
    | nil =>
      cases rest with
      | nil => simp [parseField, parseUnquoted]
      | cons c r =>
        have hc : c = ',' ∨ c = '\n' := by simpa [headStop] using h
        have hne : c ≠ '"' := by rcases hc with h2 | h2 <;> simp [h2]
        simp [parseField, hne, parseUnquoted, hc]
    | cons c t =>
      have hne : c ≠ '"' := by
        intro hcq
        have := (needsQuote_eq_false_iff (c :: t)).mp hq' c (by simp)
        tauto
      have := parseUnquoted_plain (c :: t) rest hf h
      simpa [parseField, hne] using this

theorem parseFieldsF_encodeLF (fs : List (List Char)) (rest : List Char) (fuel : Nat)
    (hne : fs ≠ []) (hfuel : fs.length ≤ fuel) :
    parseFieldsF fuel (encodeRecordLF fs ++ rest) = (fs, rest) := by
  induction fs generalizing fuel rest with
  | nil => exact absurd rfl hne
  | cons f fs ih =>
    obtain ⟨k, rfl⟩ : ∃ k, fuel = k + 1 := by
      cases fuel with
      | zero => simp at hfuel
      | succ k => exact ⟨k, rfl⟩
    cases fs with
    | nil =>
      have harr : encodeRecordLF [f] ++ rest = writeField f ++ ('\n' :: rest) := by
        simp [encodeRecordLF, List.append_assoc]
      rw [harr]
      have hp := parseField_write f ('\n' :: rest) (by simp [headStop])
      have hrc : ('\n' : Char) ≠ ',' := by decide
      simp [parseFieldsF, hp, hrc]
    | cons g gs =>
      have harr : encodeRecordLF (f :: g :: gs) ++ rest
          = writeField f ++ (',' :: (encodeRecordLF (g :: gs) ++ rest)) := by
        simp [encodeRecordLF, List.append_assoc]
      rw [harr]
      have hp := parseField_write f (',' :: (encodeRecordLF (g :: gs) ++ rest))
        (by simp [headStop])
      have hk : (g :: gs).length ≤ k := by
        simpa [Nat.succ_le_succ_iff] using hfuel
      have ihh := ih rest k (by simp) hk
      simp [parseFieldsF, hp, ihh]

theorem length_encodeRecordLF (r : List (List Char)) :
    r.length ≤ (encodeRecordLF r).length := by
  induction r with
  | nil => simp [encodeRecordLF]
  | cons f fs ih =>
    cases fs with
    | nil => simp [encodeRecordLF]
    | cons g gs =>
      have hstep : (encodeRecordLF (f :: g :: gs)).length
          = (writeField f).length + 1 + (encodeRecordLF (g :: gs)).length := by
        simp only [encodeRecordLF, List.length_append, List.length_cons]
        omega
      simp only [List.length_cons] at ih ⊢
      omega

theorem encodeRecordLF_length_pos (r : List (List Char)) :
    1 ≤ (encodeRecordLF r).length := by
  cases r with
  | nil => simp [encodeRecordLF]
  | cons f fs =>
    cases fs with
    | nil => simp [encodeRecordLF]
    | cons g gs =>
      simp only [encodeRecordLF, List.length_append, List.length_cons]
      omega

theorem parseFieldsTop_encodeLF (r : List (List Char)) (rest : List Char) (hne : r ≠ []) :
    parseFieldsTop (encodeRecordLF r ++ rest) = (r, rest) := by
  have hlen := length_encodeRecordLF r
  apply parseFieldsF_encodeLF r rest _ hne
  simp only [List.length_append]
  omega

theorem encodeRecordLF_ne_nil (r : List (List Char)) : encodeRecordLF r ≠ [] := by
  have := encodeRecordLF_length_pos r
  intro h
  rw [h] at this
  simp at this

theorem parseRecordsF_encodeLF (rows : List (List (List Char))) (fuel : Nat)
    (hrows : ∀ r ∈ rows, r ≠ []) (hfuel : rows.length ≤ fuel) :
    parseRecordsF (fuel + 1) (encodeAllLF rows) = rows := by
  induction rows generalizing fuel with
  | nil => simp [encodeAllLF, parseRecordsF]
  | cons r rs ih =>
    obtain ⟨k, rfl⟩ : ∃ k, fuel = k + 1 := by
      cases fuel with
      | zero => simp at hfuel
      | succ k => exact ⟨k, rfl⟩
    have hr : r ≠ [] := hrows r (by simp)
    have htop := parseFieldsTop_encodeLF r (encodeAllLF rs) hr
    have hcons : encodeAllLF (r :: rs) = encodeRecordLF r ++ encodeAllLF rs := rfl
    obtain ⟨c, cs, hc⟩ : ∃ c cs, encodeRecordLF r ++ encodeAllLF rs = c :: cs := by
      cases he : encodeRecordLF r with
      | nil => exact absurd he (encodeRecordLF_ne_nil r)
      | cons c cs => exact ⟨c, cs ++ encodeAllLF rs, by simp [he]⟩
    have ihh := ih k (fun q hq => hrows q (by simp [hq]))
      (by simpa [Nat.succ_le_succ_iff] using hfuel)
    rw [hcons, hc]
    rw [hc] at htop
    simp only [parseRecordsF, htop]
    exact congrArg (r :: ·) ihh

theorem length_encodeAllLF (rows : List (List (List Char))) :
    rows.length ≤ (encodeAllLF rows).length := by
  induction rows with
  | nil => simp [encodeAllLF]
  | cons r rs ih =>
    have h1 := encodeRecordLF_length_pos r
    have : (encodeAllLF (r :: rs)).length
        = (encodeRecordLF r).length + (encodeAllLF rs).length := by
      simp [encodeAllLF]
    simp only [List.length_cons]
    omega

/-- Parsing the translated image of any list of non-empty records
recovers the records exactly. -/
theorem parseCSV_encodeAllLF (rows : List (List (List Char)))
    (hrows : ∀ r ∈ rows, r ≠ []) :
    parseCSV (encodeAllLF rows) = rows := by
  unfold parseCSV
  exact parseRecordsF_encodeLF rows (encodeAllLF rows).length hrows
    (length_encodeAllLF rows)

theorem univNewlines_cons_ne (c : Char) (l : List Char) (hc : c ≠ '\r') :
    univNewlines (c :: l) = c :: univNewlines l := by
  cases l with
  | nil => simp [univNewlines, hc]
  | cons c2 rest => simp [univNewlines, hc]

theorem univNewlines_crlf (rest : List Char) :
    univNewlines ('\r' :: '\n' :: rest) = '\n' :: univNewlines rest := by
  simp [univNewlines]

theorem univNewlines_append_noCR (l rest : List Char) (hl : ∀ c ∈ l, c ≠ '\r') :
    univNewlines (l ++ rest) = l ++ univNewlines rest := by
  induction l with
  | nil => rfl
  | cons c t ih =>
    rw [List.cons_append, univNewlines_cons_ne c _ (hl c (by simp)),
      ih (fun d hd => hl d (by simp [hd])), List.cons_append]

theorem mem_escapeQuotes (f : List Char) (c : Char) (h : c ∈ escapeQuotes f) :
    c ∈ f ∨ c = '"' := by
  induction f with
  | nil => simp [escapeQuotes] at h
  | cons d t ih =>
    by_cases hq : d = '"'
    · subst hq
      simp [escapeQuotes] at h
      rcases h with h | h
      · exact Or.inr h
      · rcases ih h with h2 | h2
        · exact Or.inl (List.mem_cons_of_mem _ h2)
        · exact Or.inr h2
    · simp only [escapeQuotes, if_neg hq, List.mem_cons] at h
      rcases h with h | h
      · exact Or.inl (by simp [h])
      · rcases ih h with h2 | h2
        · exact Or.inl (List.mem_cons_of_mem _ h2)
        · exact Or.inr h2

theorem escapeQuotes_no_cr (f : List Char) (hf : ∀ c ∈ f, c ≠ '\r') :
    ∀ c ∈ escapeQuotes f, c ≠ '\r' := by
  intro c hc
  rcases mem_escapeQuotes f c hc with h | h
  · exact hf c h
  · simp [h]

theorem writeField_no_cr (f : List Char) (hf : ∀ c ∈ f, c ≠ '\r') :
    ∀ c ∈ writeField f, c ≠ '\r' := by
  intro c hc
  unfold writeField at hc
  by_cases hq : needsQuote f = true
  · simp [hq] at hc
    rcases hc with h | h | h
    · simp [h]
    · exact escapeQuotes_no_cr f hf c h
    · simp [h]
  · simp [hq] at hc
    exact hf c hc

/-- Universal-newline translation of one written record with CR-free
fields: only the CRLF record terminator changes, to a lone LF. -/
theorem univNewlines_encodeRecord (r : List (List Char)) (rest : List Char)
    (hr : ∀ f ∈ r, ∀ c ∈ f, c ≠ '\r') :
    univNewlines (encodeRecord r ++ rest) = encodeRecordLF r ++ univNewlines rest := by
  induction r with
  | nil => simpa [encodeRecord, encodeRecordLF] using univNewlines_crlf rest
  | cons f fs ih =>
    have hwf := writeField_no_cr f (hr f (by simp))
    cases fs with
    | nil =>
      have harr : encodeRecord [f] ++ rest = writeField f ++ ('\r' :: '\n' :: rest) := by
        simp [encodeRecord, List.append_assoc]
      have harr2 : encodeRecordLF [f] ++ univNewlines rest
          = writeField f ++ ('\n' :: univNewlines rest) := by
        simp [encodeRecordLF, List.append_assoc]
      rw [harr, harr2, univNewlines_append_noCR _ _ hwf, univNewlines_crlf]
    | cons g gs =>
      have harr : encodeRecord (f :: g :: gs) ++ rest
          = writeField f ++ (',' :: (encodeRecord (g :: gs) ++ rest)) := by
        simp [encodeRecord, List.append_assoc]
      have harr2 : encodeRecordLF (f :: g :: gs) ++ univNewlines rest
          = writeField f ++ (',' :: (encodeRecordLF (g :: gs) ++ univNewlines rest)) := by
        simp [encodeRecordLF, List.append_assoc]
      rw [harr, harr2, univNewlines_append_noCR _ _ hwf,
        univNewlines_cons_ne ',' _ (by decide),
        ih (fun q hq => hr q (by simp [hq]))]

theorem univNewlines_encodeAll (rows : List (List (List Char)))
    (h : ∀ r ∈ rows, ∀ f ∈ r, ∀ c ∈ f, c ≠ '\r') :
    univNewlines (encodeAll rows) = encodeAllLF rows := by
  induction rows with
  | nil => rfl
  | cons r rs ih =>
    have hrec := univNewlines_encodeRecord r (encodeAll rs) (h r (by simp))
    have hstep : encodeAll (r :: rs) = encodeRecord r ++ encodeAll rs := rfl
    rw [hstep, hrec, ih (fun q hq => h q (by simp [hq]))]
    rfl

/-! ## Result-store lemmas -/

theorem toList_asString (l : List Char) : l.asString.toList = l := rfl

theorem asString_toList (s : String) : s.toList.asString = s := rfl

theorem rowOfFields_rowFields (r : StrRow) : rowOfFields (rowFields r) = some r := rfl

theorem rowFields_ne_nil (r : StrRow) : rowFields r ≠ [] := by
  simp [rowFields]

theorem filterMap_rowOfFields (rs : List StrRow) :
    List.filterMap rowOfFields (rs.map rowFields) = rs := by
  induction rs with
  | nil => rfl
  | cons r t ih => simp [rowOfFields_rowFields, ih]

theorem rowCrFree_fields (r : StrRow) (h : rowCrFree r = true) :
    ∀ f ∈ rowFields r, ∀ c ∈ f, c ≠ '\r' := by
  intro f hf c hc
  have hall : ∀ f ∈ rowFields r, crFree f = true := by
    simpa [rowCrFree, List.all_eq_true] using h
  have hcf := hall f hf
  simp only [crFree, List.all_eq_true] at hcf
  simpa using hcf c hc

/-- Reading back a file written by `save_results_to_csv` recovers every
row with identical field values, provided no field contains a carriage
return — CR-containing fields are altered by the text-mode read's
universal-newline translation. -/
theorem readRows_save (results : List StrRow)
    (hcr : ∀ r ∈ results, rowCrFree r = true) :
    readRows (save_results_to_csv results) = results := by
  have hnonempty : ∀ q ∈ fieldnamesChars :: results.map rowFields, q ≠ [] := by
    intro q hq
    rcases List.mem_cons.mp hq with h | h
    · subst h
      simp [fieldnamesChars, fieldnames]
    · obtain ⟨w, _, rfl⟩ := List.mem_map.mp h
      exact rowFields_ne_nil w
  have hnocr : ∀ q ∈ fieldnamesChars :: results.map rowFields,
      ∀ f ∈ q, ∀ c ∈ f, c ≠ '\r' := by
    intro q hq
    rcases List.mem_cons.mp hq with h | h
    · subst h
      decide
    · obtain ⟨w, hw, rfl⟩ := List.mem_map.mp h
      exact rowCrFree_fields w (hcr w hw)
  unfold readRows save_results_to_csv
  rw [univNewlines_encodeAll _ hnocr, parseCSV_encodeAllLF _ hnonempty]
  simp only [if_pos rfl]
  exact filterMap_rowOfFields results

/-! ## General lemmas about the checker and the orchestrator -/

theorem open_profile_loop_status (target : List Char) (env : Nat → AttemptOutcome) :
    ∀ fuel attempt, (open_profile_loop target env attempt fuel).1 = "success"
      ∨ (open_profile_loop target env attempt fuel).1 = "not_found"
      ∨ (open_profile_loop target env attempt fuel).1 = "load_failed"
      ∨ (open_profile_loop target env attempt fuel).1 = "error" := by
  intro fuel
  induction fuel with
  | zero => intro attempt; simp [open_profile_loop]
  | succ k ih =>
    intro attempt
    cases h : env attempt with
    | raised =>
      by_cases h1 : attempt + 1 < 3
      · simpa [open_profile_loop, h, h1] using ih (attempt + 1)
      · simp [open_profile_loop, h, h1]
    | page src =>
      by_cases h1 : notFoundCheck src = true
      · simp [open_profile_loop, h, h1]
      · by_cases h2 : loadedCheck target src = true
        · simp [open_profile_loop, h, h1, h2]
        · by_cases h3 : attempt + 1 < 3
          · simpa [open_profile_loop, h, h1, h2, h3] using ih (attempt + 1)
          · simp [open_profile_loop, h, h1, h2, h3]

theorem open_profile_status (target : List Char) (env : Nat → AttemptOutcome) :
    (open_profile target env).1 = "success" ∨ (open_profile target env).1 = "not_found"
      ∨ (open_profile target env).1 = "load_failed"
      ∨ (open_profile target env).1 = "error" :=
  open_profile_loop_status target env 3 0

theorem error_append_ne (msg s : String) (h : s.data.head? ≠ some 'e') :
    "error: " ++ msg ≠ s := by
  intro he
  apply h
  have h2 : ("error: " ++ msg).data = s.data := congrArg String.data he
  rw [← h2]
  rfl

theorem save_screenshot_path_ne_empty (user ts : String) :
    save_screenshot_path user ts ≠ "" := by
  intro h
  have h2 := congrArg String.data h
  unfold save_screenshot_path at h2
  simp only [String.data_append] at h2
  simp at h2

theorem getLast?_append_pair (l : List Ev) (a b : Ev) :
    (l ++ [a, b]).getLast? = some b := by
  induction l with
  | nil => rfl
  | cons x xs ih =>
    rw [List.cons_append, List.getLast?_cons]
    simpa [List.getLast?_eq_head?_reverse] using ih

theorem isPrefixOfB_self_append (pat rest : List Char) :
    isPrefixOfB pat (pat ++ rest) = true := by
  induction pat with
  | nil => rfl
  | cons c t ih => simp [isPrefixOfB, ih]

theorem containsSub_self_append (pat rest : List Char) :
    containsSub pat (pat ++ rest) = true := by
  cases pat with
  | nil =>
    cases rest with
    | nil => rfl
    | cons b bs => simp [containsSub, isPrefixOfB]
  | cons p ps =>
    have hpre := isPrefixOfB_self_append (p :: ps) rest
    rw [List.cons_append] at hpre
    simp [containsSub, hpre]

theorem runLoop_results_length (env : RunEnv) (N : Nat) :
    ∀ accounts i, (runLoop env N accounts i).results.length
      = (runLoop env N accounts i).processed.length := by
  intro accounts
  induction accounts with
  | nil => intro i; simp [runLoop]
  | cons a rest ih =>
    intro i
    by_cases hc : (!env.alive i && !env.recoverOk i) = true
    · simp [runLoop, hc]
    · simp only [Bool.not_eq_true] at hc
      simp [runLoop, hc, ih (i + 1)]

theorem runLoop_processed (env : RunEnv) (N : Nat)
    (h : ∀ j, env.alive j = true ∨ env.recoverOk j = true) :
    ∀ accounts i, (runLoop env N accounts i).processed = accounts := by
  intro accounts
  induction accounts with
  | nil => intro i; simp [runLoop]
  | cons a rest ih =>
    intro i
    have hc : (!env.alive i && !env.recoverOk i) = false := by
      rcases h i with h1 | h1 <;> simp [h1]
    simp [runLoop, hc, ih (i + 1)]

theorem runLoop_restarts (env : RunEnv) (N : Nat)
    (h : ∀ j, env.alive j = true ∨ env.recoverOk j = true) :
    ∀ accounts i, (runLoop env N accounts i).restarts
      = ((List.range accounts.length).map (fun k => k + i)).filter
          (fun j => decide (1 < j) && ((j - 1) % N == 0)) := by
  intro accounts
  induction accounts with
  | nil => intro i; simp [runLoop]
  | cons a rest ih =>
    intro i
    have hc : (!env.alive i && !env.recoverOk i) = false := by
      rcases h i with h1 | h1 <;> simp [h1]
    have hrange : (List.range (rest.length + 1)).map (fun k => k + i)
        = i :: (List.range rest.length).map (fun k => k + (i + 1)) := by
      rw [List.range_succ_eq_map]
      simp only [List.map_cons, List.map_map, Nat.zero_add]
      have hfun : ((fun k => k + i) ∘ Nat.succ) = fun k => k + (i + 1) := by
        funext k
        simp [Function.comp]
        omega
      rw [hfun]
    simp only [List.length_cons]
    rw [hrange, List.filter_cons]
    by_cases hp : (decide (1 < i) && ((i - 1) % N == 0)) = true
    · simp [runLoop, hc, hp, ih (i + 1)]
    · simp only [Bool.not_eq_true] at hp
      simp [runLoop, hc, hp, ih (i + 1)]

theorem noWarningIncrements_append (l₁ l₂ : List Ev) :
    noWarningIncrements (l₁ ++ l₂) = noWarningIncrements l₁ + noWarningIncrements l₂ := by
  simp [noWarningIncrements, List.filter_append]

theorem noWarningIncrements_progress (u st : String) :
    noWarningIncrements [Ev.progress u st] = if (st == "no_warning") = true then 1 else 0 := by
  by_cases h : (st == "no_warning") = true <;>
    simp [noWarningIncrements, isNoWarningEv, h]

theorem noWarningIncrements_nil : noWarningIncrements [] = 0 := rfl

theorem noWarningIncrements_cons (e : Ev) (l : List Ev) :
    noWarningIncrements (e :: l)
      = (if isNoWarningEv e = true then 1 else 0) + noWarningIncrements l := by
  by_cases h : isNoWarningEv e = true
  · simp [noWarningIncrements, h]
    omega
  · simp [noWarningIncrements, h]

theorem noWarningIncrements_goHome : noWarningIncrements [Ev.goHome] = 0 := rfl

theorem checkExcept_status (row : ResultRow) (msg : String) (evs : List Ev) :
    (checkExcept row msg evs).1.status = "error: " ++ msg := rfl

theorem checkExcept_has_warning (row : ResultRow) (msg : String) (evs : List Ev) :
    (checkExcept row msg evs).1.has_warning = row.has_warning := rfl

theorem checkExcept_screenshot (row : ResultRow) (msg : String) (evs : List Ev) :
    (checkExcept row msg evs).1.screenshot = row.screenshot := rfl

theorem checkExcept_getLast (row : ResultRow) (msg : String) (evs : List Ev) :
    (checkExcept row msg evs).2.getLast? = some Ev.goHome := by
  have h := getLast?_append_pair evs (Ev.progress row.username "error") Ev.goHome
  simpa [checkExcept] using h

theorem noWarningIncrements_checkExcept (row : ResultRow) (msg : String) (evs : List Ev) :
    noWarningIncrements (checkExcept row msg evs).2 = noWarningIncrements evs := by
  have h : (checkExcept row msg evs).2
      = evs ++ [Ev.progress row.username "error", Ev.goHome] := rfl
  rw [h, noWarningIncrements_append]
  simp [noWarningIncrements, isNoWarningEv]

theorem open_profile_loop_trace (target : List Char) (env : Nat → AttemptOutcome) :
    ∀ fuel attempt, noWarningIncrements (open_profile_loop target env attempt fuel).2 = 0 := by
  intro fuel
  induction fuel with
  | zero => intro attempt; simp [open_profile_loop, noWarningIncrements]
  | succ k ih =>
    intro attempt
    cases h : env attempt with
    | raised =>
      by_cases h1 : attempt + 1 < 3
      · simpa [open_profile_loop, h, h1] using ih (attempt + 1)
      · simp [open_profile_loop, h, h1, noWarningIncrements]
    | page src =>
      by_cases h1 : notFoundCheck src = true
      · simp [open_profile_loop, h, h1, noWarningIncrements]
      · by_cases h2 : loadedCheck target src = true
        · simp [open_profile_loop, h, h1, h2, noWarningIncrements]
        · by_cases h3 : attempt + 1 < 3
          · have := ih (attempt + 1)
            simp only [open_profile_loop, h, h1, h2, h3, if_neg, if_pos, Bool.false_eq_true,
              if_false]
            simpa [noWarningIncrements, isNoWarningEv] using this
          · simp [open_profile_loop, h, h1, h2, h3, noWarningIncrements]

theorem open_profile_trace (target : List Char) (env : Nat → AttemptOutcome) :
    noWarningIncrements (open_profile target env).2 = 0 :=
  open_profile_loop_trace target env 3 0

/-! ## C7 — planned session-restart schedule -/

/-- C7: in a batch run that is not aborted by a failed session recovery,
the planned session restart is performed exactly before processing the
1-based accounts `i` with `i > 1` and `(i - 1) % batch_size == 0`,
independent of the liveness pattern. -/
theorem c7_session_restart_schedule (env : RunEnv) (N : Nat) (accounts : List String)
    (hN : 0 < N) (h : ∀ j, env.alive j = true ∨ env.recoverOk j = true) :
    (runLoop env N accounts 1).restarts
      = ((List.range accounts.length).map (fun k => k + 1)).filter
          (fun j => decide (1 < j) && ((j - 1) % N == 0)) :=
  runLoop_restarts env N h accounts 1

/-- C7 witness: batch size 2, five accounts — restarts occur exactly
before accounts 3 and 5. -/
theorem c7_session_restart_schedule_witness :
    (runLoop healthyRunEnv 2 ["a1", "a2", "a3", "a4", "a5"] 1).restarts = [3, 5] := by
  rw [c7_session_restart_schedule healthyRunEnv 2 ["a1", "a2", "a3", "a4", "a5"]
    (by decide) (fun j => Or.inl rfl)]
  decide

/-! ## C4 — cancellation is never polled by the real batch loop -/

/-- C4 (code bug): the batch loop of `checker_appium.run` contains no
read of the shared `execution_state["is_running"]` flag, so its output is
identical under every cancellation schedule and every account is still
processed after a cancel request; the flag stops the loop only in the
stub mode of `main.py` (`stubLoop`), where, once cancelled, no further
account is started. -/
theorem c4_cancel_flag_not_polled (cancel₁ cancel₂ : Nat → Bool) (env : RunEnv) (N : Nat)
    (accounts : List String)
    (h : ∀ j, env.alive j = true ∨ env.recoverOk j = true) :
    (runWithCancel cancel₁ env N accounts).processed = accounts
      ∧ runWithCancel cancel₁ env N accounts = runWithCancel cancel₂ env N accounts
      ∧ stubLoop (fun _ => is_running_after_cancel) accounts 1 = [] := by
  refine ⟨runLoop_processed env N h accounts 1, rfl, ?_⟩
  cases accounts <;> simp [stubLoop, is_running_after_cancel]

/-- C4 witness: cancelling after the first account of three leaves the
real batch loop processing all three accounts. -/
theorem c4_cancel_flag_not_polled_witness :
    (runWithCancel (fun i => decide (1 < i)) healthyRunEnv 20 ["a", "b", "c"]).processed
        = ["a", "b", "c"]
      ∧ runWithCancel (fun i => decide (1 < i)) healthyRunEnv 20 ["a", "b", "c"]
        = runWithCancel (fun _ => false) healthyRunEnv 20 ["a", "b", "c"]
      ∧ stubLoop (fun _ => is_running_after_cancel) ["a", "b", "c"] 1 = [] :=
  c4_cancel_flag_not_polled (fun i => decide (1 < i)) (fun _ => false) healthyRunEnv 20
    ["a", "b", "c"] (fun j => Or.inl rfl)

/-! ## C8 — rotation counters -/

theorem get_available_lt (accounts : List InstagramAccount) (stats : StatsMap)
    (today : String) (a : InstagramAccount)
    (hsel : get_available_account accounts stats today = some a) :
    (statsGet (reset_daily_stats_if_needed today stats) a.username).today_follows
      < MAX_FOLLOWS_PER_DAY := by
  unfold get_available_account at hsel
  have h := List.find?_some hsel
  simpa using h

theorem statsGet_mapIncr_ge (stats : StatsMap) (username now v : String) :
    (statsGet stats v).today_follows
      ≤ (statsGet (stats.map fun p => if p.1 == username
          then (p.1, { p.2 with today_follows := p.2.today_follows + 1, last_follow_at := some now })
          else p) v).today_follows := by
  induction stats with
  | nil => simp [statsGet]
  | cons p rest ih =>
    by_cases hpu : (p.1 == username) = true
    · by_cases hpv : (p.1 == v) = true
      · simp [statsGet, List.find?, hpu, hpv]
      · simpa [statsGet, List.find?, hpu, hpv] using ih
    · by_cases hpv : (p.1 == v) = true
      · simp [statsGet, List.find?, hpu, hpv]
      · simpa [statsGet, List.find?, hpu, hpv] using ih

theorem statsGet_append_ge (stats : StatsMap) (e : String × AccountStats) (v : String) :
    (statsGet stats v).today_follows ≤ (statsGet (stats ++ [e]) v).today_follows := by
  induction stats with
  | nil =>
    have h0 : (statsGet [] v).today_follows = 0 := rfl
    rw [h0]
    exact Nat.zero_le _
  | cons p rest ih =>
    by_cases hpv : (p.1 == v) = true
    · simp [statsGet, List.find?, hpv]
    · simpa [statsGet, List.find?, hpv] using ih

/-- Within a day the counters never decrease: `increment_follow_count`
only adds. -/
theorem statsGet_increment_ge (stats : StatsMap) (username now today v : String) :
    (statsGet stats v).today_follows
      ≤ (statsGet (increment_follow_count stats username now today) v).today_follows := by
  unfold increment_follow_count
  by_cases hmem : stats.any (fun p => p.1 == username) = true
  · simpa [hmem] using statsGet_mapIncr_ge stats username now v
  · simp only [hmem, Bool.false_eq_true, if_false]
    exact statsGet_append_ge stats _ v

/-- Resetting on the same calendar day leaves a same-day-stamped
counter unchanged. -/
theorem statsGet_reset_same_day (today : String) (stats : StatsMap) (w : String)
    (hday : (statsGet stats w).last_reset_date = some today) :
    (statsGet (reset_daily_stats_if_needed today stats) w).today_follows
      = (statsGet stats w).today_follows := by
  induction stats with
  | nil => rfl
  | cons p rest ih =>
    by_cases hpw : (p.1 == w) = true
    · have hsg : statsGet (p :: rest) w = p.2 := by simp [statsGet, List.find?, hpw]
      rw [hsg] at hday ⊢
      simp [reset_daily_stats_if_needed, statsGet, List.find?, hpw, hday]
    · have hsg : statsGet (p :: rest) w = statsGet rest w := by
        simp [statsGet, List.find?, hpw]
      rw [hsg] at hday ⊢
      have ihh := ih hday
      by_cases hd : p.2.last_reset_date = some today <;>
        simpa [reset_daily_stats_if_needed, statsGet, List.find?, hpw, hd] using ihh

/-- A day-boundary reset happens exactly once: a second same-day reset is
the identity. -/
theorem reset_idem (today : String) (stats : StatsMap) :
    reset_daily_stats_if_needed today (reset_daily_stats_if_needed today stats)
      = reset_daily_stats_if_needed today stats := by
  unfold reset_daily_stats_if_needed
  rw [List.map_map]
  apply List.map_congr_left
  intro p _
  by_cases hd : p.2.last_reset_date = some today <;> simp [Function.comp, hd]

/-- C8: at the moment a credential is selected its (day-reset) counter is
strictly below the daily cap of 60; within a day the counter is
monotonically non-decreasing (increments only add, and a same-day reset
leaves same-day-stamped counters unchanged); crossing a day boundary
resets exactly once (a second same-day reset is the identity). -/
theorem c8_rotation_counters (accounts : List InstagramAccount) (stats : StatsMap)
    (today now u v w : String) (a : InstagramAccount)
    (hsel : get_available_account accounts stats today = some a)
    (hday : (statsGet stats w).last_reset_date = some today) :
    (statsGet (reset_daily_stats_if_needed today stats) a.username).today_follows
        < MAX_FOLLOWS_PER_DAY
      ∧ (statsGet stats v).today_follows
        ≤ (statsGet (increment_follow_count stats u now today) v).today_follows
      ∧ (statsGet (reset_daily_stats_if_needed today stats) w).today_follows
        = (statsGet stats w).today_follows
      ∧ reset_daily_stats_if_needed today (reset_daily_stats_if_needed today stats)
        = reset_daily_stats_if_needed today stats :=
  ⟨get_available_lt accounts stats today a hsel,
    statsGet_increment_ge stats u now today v,
    statsGet_reset_same_day today stats w hday,
    reset_idem today stats⟩

/-- C8 witness: one credential at 59 follows, stamped today, is selected
and all counter laws hold at it. -/
theorem c8_rotation_counters_witness :
    (statsGet (reset_daily_stats_if_needed "2026-02-03"
          [("u1", ⟨59, none, some "2026-02-03"⟩)]) "u1").today_follows < MAX_FOLLOWS_PER_DAY
      ∧ (statsGet [("u1", ⟨59, none, some "2026-02-03"⟩)] "u1").today_follows
        ≤ (statsGet (increment_follow_count [("u1", ⟨59, none, some "2026-02-03"⟩)]
            "u1" "2026-02-03T10:00:00" "2026-02-03") "u1").today_follows
      ∧ (statsGet (reset_daily_stats_if_needed "2026-02-03"
            [("u1", ⟨59, none, some "2026-02-03"⟩)]) "u1").today_follows
        = (statsGet [("u1", ⟨59, none, some "2026-02-03"⟩)] "u1").today_follows
      ∧ reset_daily_stats_if_needed "2026-02-03" (reset_daily_stats_if_needed "2026-02-03"
            [("u1", ⟨59, none, some "2026-02-03"⟩)])
        = reset_daily_stats_if_needed "2026-02-03" [("u1", ⟨59, none, some "2026-02-03"⟩)] :=
  c8_rotation_counters [⟨"u1", "pw"⟩] [("u1", ⟨59, none, some "2026-02-03"⟩)]
    "2026-02-03" "2026-02-03T10:00:00" "u1" "u1" "u1" ⟨"u1", "pw"⟩ (by decide) (by decide)

/-! ## C5 — exhausted credentials -/

theorem get_available_none (accounts : List InstagramAccount) (stats : StatsMap)
    (today : String)
    (hcap : ∀ a ∈ accounts, MAX_FOLLOWS_PER_DAY
        ≤ (statsGet (reset_daily_stats_if_needed today stats) a.username).today_follows) :
    get_available_account accounts stats today = none := by
  unfold get_available_account
  rw [List.find?_eq_none]
  intro a ha
  simp only [decide_eq_true_eq, not_lt]
  exact hcap a ha

theorem run_checker_sync_exhausted (accounts : List InstagramAccount) (stats : StatsMap)
    (today : String) (jenv : JobEnv)
    (hne : accounts ≠ [])
    (hcap : ∀ a ∈ accounts, MAX_FOLLOWS_PER_DAY
        ≤ (statsGet (reset_daily_stats_if_needed today stats) a.username).today_follows) :
    run_checker_sync accounts stats today jenv
      = (⟨"failed", some "全アカウント上限到達", false⟩, stats) := by
  have hemp : accounts.isEmpty = false := by
    cases accounts with
    | nil => exact absurd rfl hne
    | cons x xs => rfl
  have hnone : get_available_account accounts
      (reset_daily_stats_if_needed today stats) today = none := by
    apply get_available_none
    intro a ha
    rw [reset_idem]
    exact hcap a ha
  simp [run_checker_sync, hemp, hnone]

theorem process_queue_exhausted (accounts : List InstagramAccount) (stats : StatsMap)
    (today : String) (jobs : List JobEnv)
    (hne : accounts ≠ [])
    (hcap : ∀ a ∈ accounts, MAX_FOLLOWS_PER_DAY
        ≤ (statsGet (reset_daily_stats_if_needed today stats) a.username).today_follows) :
    process_queue accounts today jobs stats
      = jobs.map (fun _ => (⟨"failed", some "全アカウント上限到達", false⟩ : JobResult)) := by
  induction jobs with
  | nil => rfl
  | cons j rest ih =>
    simp [process_queue, run_checker_sync_exhausted accounts stats today j hne hcap, ih]

/-- C5 counterexample: with every credential at the daily cap the submit
endpoint still accepts and queues the job — the submission itself does
not fail with the exhausted error. -/
theorem c5_counterexample :
    get_available_account [⟨"u1", "pw"⟩] [("u1", ⟨60, none, some "2026-02-03"⟩)]
        "2026-02-03" = none
      ∧ start_checker true = ⟨true, true, true⟩
      ∧ (start_checker true).queued = true := by
  decide

/-- C5 (amended): submission is accepted regardless of quota; when every
configured credential is at the daily cap, the dequeued job fails fast
with the `全アカウント上限到達` (all accounts exhausted) error before any
checker instance is created, the stats file is untouched, and every job
queued in that state is likewise failed — none is left pending. -/
theorem c5_exhausted_fail_fast (accounts : List InstagramAccount) (stats : StatsMap)
    (today : String) (jenv : JobEnv) (jobs : List JobEnv)
    (hne : accounts ≠ [])
    (hcap : ∀ a ∈ accounts, MAX_FOLLOWS_PER_DAY
        ≤ (statsGet (reset_daily_stats_if_needed today stats) a.username).today_follows) :
    (run_checker_sync accounts stats today jenv).1
        = ⟨"failed", some "全アカウント上限到達", false⟩
      ∧ (run_checker_sync accounts stats today jenv).1.checker_invoked = false
      ∧ (run_checker_sync accounts stats today jenv).2 = stats
      ∧ process_queue accounts today jobs stats
        = jobs.map (fun _ => (⟨"failed", some "全アカウント上限到達", false⟩ : JobResult))
      ∧ start_checker true = ⟨true, true, true⟩ := by
  have h := run_checker_sync_exhausted accounts stats today jenv hne hcap
  refine ⟨?_, ?_, ?_, process_queue_exhausted accounts stats today jobs hne hcap, rfl⟩
  · rw [h]
  · rw [h]
  · rw [h]

/-- C5 witness: one credential at the cap — the job fails fast, nothing
is invoked, the queue drains into failures, the submission was accepted. -/
theorem c5_exhausted_fail_fast_witness :
    (run_checker_sync [⟨"u1", "pw"⟩] [("u1", ⟨60, none, some "2026-02-03"⟩)]
          "2026-02-03" plainJobEnv).1
        = ⟨"failed", some "全アカウント上限到達", false⟩
      ∧ (run_checker_sync [⟨"u1", "pw"⟩] [("u1", ⟨60, none, some "2026-02-03"⟩)]
          "2026-02-03" plainJobEnv).1.checker_invoked = false
      ∧ (run_checker_sync [⟨"u1", "pw"⟩] [("u1", ⟨60, none, some "2026-02-03"⟩)]
          "2026-02-03" plainJobEnv).2 = [("u1", ⟨60, none, some "2026-02-03"⟩)]
      ∧ process_queue [⟨"u1", "pw"⟩] "2026-02-03" [plainJobEnv]
          [("u1", ⟨60, none, some "2026-02-03"⟩)]
        = [plainJobEnv].map
            (fun _ => (⟨"failed", some "全アカウント上限到達", false⟩ : JobResult))
      ∧ start_checker true = ⟨true, true, true⟩ :=
  c5_exhausted_fail_fast [⟨"u1", "pw"⟩] [("u1", ⟨60, none, some "2026-02-03"⟩)]
    "2026-02-03" plainJobEnv [plainJobEnv] (by decide) (by decide)

/-! ## C9 — result-store round trip -/

theorem load_completed_all_terminal (re : Bool) (rows : List StrRow)
    (h : ∀ r ∈ rows, r.username ≠ "" ∧ isTerminalStatus re r.status = true) :
    load_completed_accounts re rows = (rows.map (fun r => r.username), rows) := by
  induction rows with
  | nil => rfl
  | cons q rest ih =>
    have hq := h q (by simp)
    have ihh := ih (fun r hr => h r (by simp [hr]))
    simp [load_completed_accounts, hq.1, hq.2, ihh]

/-- C9 counterexample: a row whose status is the schema's `unknown`
value survives the CSV write and the `DictReader` read but is dropped by
the read-back through `_load_completed_accounts` (one row in, zero rows
out); and a field containing a carriage return comes back altered — the
reader's text-mode `open` without `newline=''` maps the CR inside the
quoted field to LF, so the written row is not recovered byte for byte. -/
theorem c9_counterexample :
    (readRows (save_results_to_csv [⟨"alice", "False", "", "", "unknown", "t1", ""⟩])).length
        = 1
      ∧ (load_completed_accounts false
          (readRows (save_results_to_csv
            [⟨"alice", "False", "", "", "unknown", "t1", ""⟩]))).2.length = 0
      ∧ readRows (save_results_to_csv
            [⟨"carol", "False", "", "a\rb", "no_warning", "t2", ""⟩])
          = [⟨"carol", "False", "", "a\nb", "no_warning", "t2", ""⟩]
      ∧ readRows (save_results_to_csv
            [⟨"carol", "False", "", "a\rb", "no_warning", "t2", ""⟩])
          ≠ [⟨"carol", "False", "", "a\rb", "no_warning", "t2", ""⟩] := by
  decide

/-- C9 (amended): for every non-empty result set whose rows carry a
username, a terminal status (which is every row the checker itself
writes) and no carriage return in any field, writing with
`save_results_to_csv` and reading the file back yields the same number
of rows with identical field values — including fields containing
delimiters, quotes and LF line breaks — and the resume reader re-emits
exactly those rows.  Fields containing CR are excluded because the
reader's universal-newline translation maps CR and CRLF inside them to
LF (see the counterexample); rows outside the terminal set are dropped. -/
theorem c9_round_trip (results : List StrRow) (hne : results ≠ [])
    (hrows : ∀ r ∈ results, r.username ≠ "" ∧ isTerminalStatus false r.status = true)
    (hcr : ∀ r ∈ results, rowCrFree r = true) :
    readRows (save_results_to_csv results) = results
      ∧ load_completed_accounts false (readRows (save_results_to_csv results))
        = (results.map (fun r => r.username), results) := by
  have h1 := readRows_save results hcr
  exact ⟨h1, by rw [h1]; exact load_completed_all_terminal false results hrows⟩

/-- C9 witness: the round trip preserves rows with embedded commas,
quotes and LF newlines byte for byte. -/
theorem c9_round_trip_witness :
    readRows (save_results_to_csv [quotedRow, newlineRow]) = [quotedRow, newlineRow]
      ∧ load_completed_accounts false
          (readRows (save_results_to_csv [quotedRow, newlineRow]))
        = ([quotedRow, newlineRow].map (fun r => r.username), [quotedRow, newlineRow]) :=
  c9_round_trip [quotedRow, newlineRow] (by decide) (by decide) (by decide)

/-! ## C3 — resume semantics -/

theorem isTerminal_error (msg : String) :
    isTerminalStatus false ("error: " ++ msg) = true := by
  unfold isTerminalStatus skip_statuses
  simp only [List.any_eq_true]
  refine ⟨"error", by simp, ?_⟩
  have h1 : ("error: " ++ msg).toList = "error".toList ++ (':' :: ' ' :: msg.toList) := by
    have h2 : ("error: " ++ msg).data = "error: ".data ++ msg.data := String.data_append _ _
    have h3 : "error: ".data = "error".data ++ [':', ' '] := rfl
    rw [String.toList, h2, h3, List.append_assoc]
    rfl
  rw [h1]
  exact containsSub_self_append _ _

/-- Every status `check_account` can write is in the default
(`retry_errors = False`) terminal set of the resume reader. -/
theorem check_account_status_terminal (user ts : String) (env : CheckEnv) :
    isTerminalStatus false (check_account user ts env).1.status = true := by
  simp only [check_account]
  split_ifs with h1 h2 h3 h4 h5 h6
  · rcases open_profile_status user.data env.profile with h | h | h | h
    · exact absurd h h1
    all_goals simp [h] <;> decide
  · rw [checkExcept_status]
    exact isTerminal_error env.exMsg
  · rw [checkExcept_status]
    exact isTerminal_error env.exMsg
  · rw [checkExcept_status]
    exact isTerminal_error env.exMsg
  · exact (by decide : isTerminalStatus false "warning_detected" = true)
  · rw [checkExcept_status]
    exact isTerminal_error env.exMsg
  · exact (by decide : isTerminalStatus false "no_warning" = true)

theorem load_completed_mem (re : Bool) (rows : List StrRow) (r : StrRow)
    (hr : r ∈ rows) (hu : r.username ≠ "") (ht : isTerminalStatus re r.status = true) :
    r ∈ (load_completed_accounts re rows).2
      ∧ r.username ∈ (load_completed_accounts re rows).1 := by
  induction rows with
  | nil => cases hr
  | cons q rest ih =>
    rcases List.mem_cons.mp hr with h | h
    · subst h
      simp [load_completed_accounts, hu, ht]
    · have ihh := ih h
      by_cases hq : q.username = ""
      · simpa [load_completed_accounts, hq] using ihh
      · by_cases hqt : isTerminalStatus re q.status = true
        · simp only [load_completed_accounts, if_neg hq, if_pos hqt]
          exact ⟨List.mem_cons_of_mem _ ihh.1, List.mem_cons_of_mem _ ihh.2⟩
        · simpa [load_completed_accounts, hq, hqt] using ihh

/-- C3 counterexample: resuming with `retry_errors = True` over a prior
file holding an `error:` row for an account that is not in the new input
list drops that row from the re-emitted results and never reprocesses the
account — a row of the existing file is silently dropped. -/
theorem c3_counterexample :
    (run_resume ["bob"] [⟨"alice", "False", "", "", "error: boom", "t1", ""⟩] true).2 = []
      ∧ "alice" ∉ (run_resume ["bob"]
          [⟨"alice", "False", "", "", "error: boom", "t1", ""⟩] true).1 := by
  decide

/-- C3 (amended): on resume, every prior row with a username whose status
is in the terminal set is re-emitted unchanged and its account is never
processed again; the remaining accounts keep their original relative
order; terminal rows are never dropped, while rows outside the terminal
set (and rows without a username) are not carried over — their accounts
are reprocessed only if still in the input; and with
`retry_errors = False` every status the checker itself writes is
terminal, so a self-produced file loses no row. -/
theorem c3_resume_semantics (accounts : List String) (rows : List StrRow) (re : Bool)
    (r : StrRow) (user2 ts2 : String) (env2 : CheckEnv)
    (hr : r ∈ rows) (hu : r.username ≠ "") (ht : isTerminalStatus re r.status = true) :
    r ∈ (run_resume accounts rows re).2
      ∧ r.username ∉ (run_resume accounts rows re).1
      ∧ List.Sublist (run_resume accounts rows re).1 accounts
      ∧ isTerminalStatus false (check_account user2 ts2 env2).1.status = true := by
  have hm := load_completed_mem re rows r hr hu ht
  have hne : ((load_completed_accounts re rows).1).isEmpty = false := by
    cases hc : (load_completed_accounts re rows).1 with
    | nil => rw [hc] at hm; cases hm.2
    | cons x xs => simp
  refine ⟨?_, ?_, ?_, check_account_status_terminal user2 ts2 env2⟩
  · simp [run_resume, hne, hm.1]
  · intro hmem
    simp only [run_resume, hne] at hmem
    have h2 : r.username ∈ accounts ∧ r.username ∉ (load_completed_accounts re rows).1 := by
      simpa using hmem
    exact h2.2 hm.2
  · simp only [run_resume, hne]
    simp only [Bool.false_eq_true, if_false]
    exact List.filter_sublist accounts

/-- C3 witness: a prior `warning_detected` row for `alice` is re-emitted,
`alice` is skipped, and the remaining input keeps its order. -/
theorem c3_resume_semantics_witness :
    (⟨"alice", "True", "fraud_warning", "d", "warning_detected", "t1", "s.png"⟩ : StrRow)
        ∈ (run_resume ["alice", "carol"]
            [⟨"alice", "True", "fraud_warning", "d", "warning_detected", "t1", "s.png"⟩]
            false).2
      ∧ "alice" ∉ (run_resume ["alice", "carol"]
            [⟨"alice", "True", "fraud_warning", "d", "warning_detected", "t1", "s.png"⟩]
            false).1
      ∧ List.Sublist (run_resume ["alice", "carol"]
            [⟨"alice", "True", "fraud_warning", "d", "warning_detected", "t1", "s.png"⟩]
            false).1 ["alice", "carol"]
      ∧ isTerminalStatus false
          (check_account "dave" "t2" plainCheckEnv).1.status = true :=
  c3_resume_semantics ["alice", "carol"]
    [⟨"alice", "True", "fraud_warning", "d", "warning_detected", "t1", "s.png"⟩] false
    ⟨"alice", "True", "fraud_warning", "d", "warning_detected", "t1", "s.png"⟩
    "dave" "t2" plainCheckEnv (by decide) (by decide) (by decide)

/-! ## C6 — navigation retry policy of `open_profile` -/

theorem open_profile_loop_succ (target : List Char) (env : Nat → AttemptOutcome)
    (attempt fuel : Nat) (h : attempt + 1 < 3) :
    open_profile_loop target env attempt (fuel + 1)
      = match attemptVerdict (classifyAttempt target (env attempt)) with
        | some s => (s, [])
        | none =>
          ((open_profile_loop target env (attempt + 1) fuel).1,
            retryHomes (classifyAttempt target (env attempt))
              ++ (open_profile_loop target env (attempt + 1) fuel).2) := by
  cases henv : env attempt with
  | raised =>
    simp [open_profile_loop, henv, h, classifyAttempt, attemptVerdict, retryHomes]
  | page src =>
    by_cases hnf : notFoundCheck src = true
    · simp [open_profile_loop, henv, h, classifyAttempt, attemptVerdict, hnf]
    · by_cases hld : loadedCheck target src = true
      · simp [open_profile_loop, henv, h, classifyAttempt, attemptVerdict, hnf, hld]
      · simp [open_profile_loop, henv, h, classifyAttempt, attemptVerdict, retryHomes,
          hnf, hld]

theorem open_profile_loop_last (target : List Char) (env : Nat → AttemptOutcome) :
    open_profile_loop target env 2 1
      = match attemptVerdict (classifyAttempt target (env 2)) with
        | some s => (s, [])
        | none =>
          ((if classifyAttempt target (env 2) = AttemptClass.raisedC then "error"
            else "load_failed"), []) := by
  cases henv : env 2 with
  | raised =>
    simp [open_profile_loop, henv, classifyAttempt, attemptVerdict]
  | page src =>
    by_cases hnf : notFoundCheck src = true
    · simp [open_profile_loop, henv, classifyAttempt, attemptVerdict, hnf]
    · by_cases hld : loadedCheck target src = true
      · simp [open_profile_loop, henv, classifyAttempt, attemptVerdict, hnf, hld]
      · simp [open_profile_loop, henv, classifyAttempt, attemptVerdict, hnf, hld]

/-- C6 counterexample: the first attempt raises and the retry then
succeeds, yet no return to the home screen happened between the two
attempts — "returning to the home screen between retries" does not hold
for exception retries (only for blank-page retries). -/
theorem c6_counterexample :
    open_profile "alice".toList
        (fun i => if i = 0 then AttemptOutcome.raised else AttemptOutcome.page bigSrc)
      = ("success", []) := by
  decide

/-- C6 (amended): `open_profile` behaves exactly as the spec-level
description `open_profile_spec`: up to 3 attempts, `not_found` is
conclusive on the attempt where an unavailable pattern matches,
recognizable long content gives `success`, exhausting retries gives
`load_failed` for a blank last attempt and `error` for a raising last
attempt, and the home screen is revisited between retries exactly after
blank-page attempts (not after exception attempts). -/
theorem c6_open_profile_matches_spec (target : List Char) (env : Nat → AttemptOutcome) :
    open_profile target env = open_profile_spec target env := by
  unfold open_profile
  rw [show (3 : Nat) = 2 + 1 from rfl, open_profile_loop_succ target env 0 2 (by norm_num)]
  cases hv0 : attemptVerdict (classifyAttempt target (env 0)) with
  | some s => simp [open_profile_spec, hv0]
  | none =>
    rw [show (2 : Nat) = 1 + 1 from rfl, open_profile_loop_succ target env 1 1 (by norm_num),
      open_profile_loop_last target env]
    cases hv1 : attemptVerdict (classifyAttempt target (env 1)) with
    | some s => simp [open_profile_spec, hv0, hv1]
    | none =>
      cases hv2 : attemptVerdict (classifyAttempt target (env 2)) with
      | some s => simp [open_profile_spec, hv0, hv1, hv2]
      | none => simp [open_profile_spec, hv0, hv1, hv2]

/-! ## C1 — the row invariant of `check_account` -/

/-- C1 counterexample: when the fraud warning is detected but the
screenshot save raises, the returned row has `has_warning = true` with an
`error:` status and an empty screenshot — both halves of the claimed
invariant fail. -/
theorem c1_counterexample :
    (check_account "alice" "2026-01-01" shotRaisesEnv).1.has_warning = true
      ∧ (check_account "alice" "2026-01-01" shotRaisesEnv).1.status ≠ "warning_detected"
      ∧ (check_account "alice" "2026-01-01" shotRaisesEnv).1.screenshot = "" := by
  decide

/-- C1 (amended): `check_account` yields exactly one row per processed
account, and whenever the screenshot save does not raise,
`has_warning = true` iff `status = "warning_detected"` and the screenshot
field is non-empty iff `has_warning`. -/
theorem c1_row_invariant (user ts : String) (env : CheckEnv) (renv : RunEnv) (N : Nat)
    (accounts : List String) (i : Nat) (hshot : env.screenshotRaises = false) :
    ((check_account user ts env).1.has_warning = true
        ↔ (check_account user ts env).1.status = "warning_detected")
      ∧ ((check_account user ts env).1.screenshot ≠ ""
        ↔ (check_account user ts env).1.has_warning = true)
      ∧ (runLoop renv N accounts i).results.length
        = (runLoop renv N accounts i).processed.length := by
  have hmain : ((check_account user ts env).1.has_warning = true
        ↔ (check_account user ts env).1.status = "warning_detected")
      ∧ ((check_account user ts env).1.screenshot ≠ ""
        ↔ (check_account user ts env).1.has_warning = true) := by
    have hwne := error_append_ne env.exMsg "warning_detected" (by decide)
    simp only [check_account, hshot, Bool.false_eq_true, if_false]
    split_ifs with h1 h2 h3 h4 h5
    · rcases open_profile_status user.data env.profile with h | h | h | h
      · exact absurd h h1
      all_goals simp [h]
    · simp [checkExcept_status, checkExcept_has_warning, checkExcept_screenshot, hwne]
    · simp [checkExcept_status, checkExcept_has_warning, checkExcept_screenshot, hwne]
    · simp [save_screenshot_path_ne_empty user ts]
    · simp [checkExcept_status, checkExcept_has_warning, checkExcept_screenshot, hwne]
    · simp
  exact ⟨hmain.1, hmain.2, runLoop_results_length renv N accounts i⟩

/-- C1 witness: a concrete account whose unfollow raises after the
no-warning report still satisfies the amended invariant. -/
theorem c1_row_invariant_witness :
    ((check_account "alice" "2026-01-01" unfollowRaisesEnv).1.has_warning = true
        ↔ (check_account "alice" "2026-01-01" unfollowRaisesEnv).1.status
            = "warning_detected")
      ∧ ((check_account "alice" "2026-01-01" unfollowRaisesEnv).1.screenshot ≠ ""
        ↔ (check_account "alice" "2026-01-01" unfollowRaisesEnv).1.has_warning = true)
      ∧ (runLoop healthyRunEnv 20 ["a"] 1).results.length
        = (runLoop healthyRunEnv 20 ["a"] 1).processed.length :=
  c1_row_invariant "alice" "2026-01-01" unfollowRaisesEnv healthyRunEnv 20 ["a"] 1 rfl

/-! ## C2 — exceptions after navigation are converted, home is reached -/

/-- C2: whenever the profile loaded and some later driver call raises,
`check_account` returns the row with status `error: <message>`, its last
action before returning is the return to home, and the batch loop still
processes every account (a single account's failure never aborts the
batch). -/
theorem c2_error_caught (user ts : String) (env : CheckEnv) (renv : RunEnv) (N : Nat)
    (accounts : List String)
    (hsucc : (open_profile user.toList env.profile).1 = "success")
    (hraise : raisesAfterNav env = true)
    (halive : ∀ j, renv.alive j = true ∨ renv.recoverOk j = true) :
    (check_account user ts env).1.status = "error: " ++ env.exMsg
      ∧ (check_account user ts env).2.getLast? = some Ev.goHome
      ∧ (runLoop renv N accounts 1).processed = accounts := by
  have hmain : (check_account user ts env).1.status = "error: " ++ env.exMsg
      ∧ (check_account user ts env).2.getLast? = some Ev.goHome := by
    simp only [check_account, hsucc]
    split_ifs with h1 h2 h3 h4 h5 h6
    · simp at h1
    · exact ⟨checkExcept_status _ _ _, checkExcept_getLast _ _ _⟩
    · exact ⟨checkExcept_status _ _ _, checkExcept_getLast _ _ _⟩
    · exact ⟨checkExcept_status _ _ _, checkExcept_getLast _ _ _⟩
    · simp [raisesAfterNav, h2, h3, h4, h5] at hraise
    · exact ⟨checkExcept_status _ _ _, checkExcept_getLast _ _ _⟩
    · simp [raisesAfterNav, h2, h3, h4, h6] at hraise
  exact ⟨hmain.1, hmain.2, runLoop_processed renv N halive accounts 1⟩

/-- C2 witness: a raising unfollow on a loaded profile yields the error
row, the final home transition, and an unaborted batch. -/
theorem c2_error_caught_witness :
    (check_account "alice" "2026-01-01" unfollowRaisesEnv).1.status = "error: " ++ "boom"
      ∧ (check_account "alice" "2026-01-01" unfollowRaisesEnv).2.getLast? = some Ev.goHome
      ∧ (runLoop healthyRunEnv 20 ["a", "b"] 1).processed = ["a", "b"] :=
  c2_error_caught "alice" "2026-01-01" unfollowRaisesEnv healthyRunEnv 20 ["a", "b"]
    (by decide) (by decide) (fun j => Or.inl rfl)

/-! ## C10 — which outcomes consume follow quota -/

/-- C10 counterexample: when the unfollow step raises after the
`no_warning` report, the account's outcome is an `error:` status yet the
follow counter was incremented once — the claim that error outcomes are
never counted fails. -/
theorem c10_counterexample :
    noWarningIncrements (check_account "alice" "2026-01-01" unfollowRaisesEnv).2 = 1
      ∧ (check_account "alice" "2026-01-01" unfollowRaisesEnv).1.status = "error: boom" := by
  decide

/-- C10 (amended): the follow counter is incremented exactly once iff the
check reaches the negative fraud-warning verdict (the `no_warning`
report), and never otherwise; the outcome status is `no_warning` iff the
report was reached and the subsequent unfollow did not raise — so the
only counted outcomes are `no_warning` itself and the `error:` rows of a
raising unfollow. -/
theorem c10_increment_characterization (user ts : String) (env : CheckEnv) :
    noWarningIncrements (check_account user ts env).2
        = (reachesNoWarningReport user env).toNat
      ∧ ((check_account user ts env).1.status = "no_warning"
        ↔ reachesNoWarningReport user env = true ∧ env.unfollowRaises = false) := by
  have htr := open_profile_trace user.data env.profile
  have hne1 := error_append_ne env.exMsg "no_warning" (by decide)
  simp only [check_account]
  split_ifs with h1 h2 h3 h4 h5 h6
  · have hbeq : ((open_profile user.data env.profile).1 == "success") = false := by
      simpa using h1
    have hr : reachesNoWarningReport user env = false := by
      simp [reachesNoWarningReport, hbeq]
    rcases open_profile_status user.data env.profile with h | h | h | h
    · exact absurd h h1
    all_goals simp [h, hr, noWarningIncrements_cons, noWarningIncrements_append,
      noWarningIncrements_progress, noWarningIncrements_nil, noWarningIncrements_goHome,
      isNoWarningEv, htr]
  · have hr : reachesNoWarningReport user env = false := by
      simp [reachesNoWarningReport, h2]
    simp [noWarningIncrements_checkExcept, checkExcept_status, hr, hne1,
      noWarningIncrements_cons, noWarningIncrements_append, noWarningIncrements_nil,
      isNoWarningEv, htr]
  · have hr : reachesNoWarningReport user env = false := by
      simp [reachesNoWarningReport, h3]
    simp [noWarningIncrements_checkExcept, checkExcept_status, hr, hne1,
      noWarningIncrements_cons, noWarningIncrements_append, noWarningIncrements_nil,
      isNoWarningEv, htr]
  · have hr : reachesNoWarningReport user env = false := by
      simp [reachesNoWarningReport, h4]
    simp [noWarningIncrements_checkExcept, checkExcept_status, hr, hne1,
      noWarningIncrements_cons, noWarningIncrements_append, noWarningIncrements_nil,
      isNoWarningEv, htr]
  · have hr : reachesNoWarningReport user env = false := by
      simp [reachesNoWarningReport, h4]
    simp [hr, noWarningIncrements_cons, noWarningIncrements_append,
      noWarningIncrements_progress, noWarningIncrements_nil, noWarningIncrements_goHome,
      isNoWarningEv, htr]
  · have h1' : (open_profile user.data env.profile).1 = "success" := by simpa using h1
    have h2' : (env.already_following && env.refollowRaises) = false := by simpa using h2
    have h3' : env.followClickRaises = false := by simpa using h3
    have h4' : env.fraud_warning = false := by simpa using h4
    have hr : reachesNoWarningReport user env = true := by
      simp [reachesNoWarningReport, h1', h2', h3', h4']
    simp [noWarningIncrements_checkExcept, checkExcept_status, hr, hne1, h6,
      noWarningIncrements_cons, noWarningIncrements_append, noWarningIncrements_progress,
      noWarningIncrements_nil, isNoWarningEv, htr]
  · have h1' : (open_profile user.data env.profile).1 = "success" := by simpa using h1
    have h2' : (env.already_following && env.refollowRaises) = false := by simpa using h2
    have h3' : env.followClickRaises = false := by simpa using h3
    have h4' : env.fraud_warning = false := by simpa using h4
    have h6' : env.unfollowRaises = false := by simpa using h6
    have hr : reachesNoWarningReport user env = true := by
      simp [reachesNoWarningReport, h1', h2', h3', h4']
    simp [hr, h6', noWarningIncrements_cons, noWarningIncrements_append,
      noWarningIncrements_progress, noWarningIncrements_nil, noWarningIncrements_goHome,
      isNoWarningEv, htr]

end Insta
